import Mathlib

/-!
Shallow embedding of `src/js/app.js` (HeadachingQuotes): a quote-of-the-day
page with a deterministic daily selector (string hash mod collection size)
and a repeat-avoiding bounded random selector, plus the display/init wiring.

Modelling conventions:
* JS 32-bit signed truncation (`|0`, `<<`) is modelled by `toInt32` on `Int`.
* A string is hashed through its sequence of character codes (`charCodeAt`),
  modelled as a `List Nat`.
* `Math.floor(Math.random() * quotes.length)` draws are modelled by a stream
  `draws : Nat → Nat` giving the index produced by the k-th draw; that each
  draw lies in `[0, length)` is a hypothesis where needed, reflecting
  `Math.random ∈ [0, 1)`.
* The do-while loop of `getRandomIndex` runs at most 20 iterations
  (`attempts < 20` guard); it is embedded with a structural fuel argument
  that starts at 20 and keeps the invariant `attempts + fuel = 20`, so the
  fuel never reaches 0 on reachable calls.
* The DOM (two text regions, their `visible` classes, the mode label) is a
  record `Dom`; `displayQuote` is modelled as the settled state after the
  fade-out, delayed text swap and visibility re-add have all fired.
-/

namespace App

/-- JS `ToInt32`: truncation of a number to a signed 32-bit two's-complement
value, as performed by `|0` and by the `<<` operator.
`2147483648 = 2^31`, `4294967296 = 2^32`. -/
def toInt32 (n : Int) : Int :=
  (n + 2147483648) % 4294967296 - 2147483648

/-- One iteration of the loop body of `hashString` in `app.js`:
`hash = (hash << 5) - hash + char; hash |= 0;`.
JS `hash << 5` first truncates `hash` to 32 bits, multiplies by 32 and
truncates again; the subtraction and addition are exact (double-precision
on values well below 2^53), and the final `|0` truncates once more. -/
def hashStep (hash : Int) (c : Nat) : Int :=
  toInt32 (toInt32 (toInt32 hash * 32) - hash + c)

/-- Model of `hashString` from `app.js`: fold the step over the character codes
starting from 0, then `Math.abs`.  On an `Int32` value, JS `Math.abs` is
exact (no trap, no wraparound): `Math.abs(-2^31) = 2^31`, which is exactly
`Int.natAbs`. -/
def hashString (codes : List Nat) : Nat :=
  (codes.foldl hashStep 0).natAbs

/-- Character codes of a Lean string; agrees with JS `charCodeAt` on
basic-plane text such as `YYYY-MM-DD` date keys. -/
def strCodes (s : String) : List Nat :=
  s.data.map Char.toNat

/-- Model of `getDailyIndex` from `app.js`: `hashString(todayString()) % quotes.length`,
with the date key and collection size as explicit parameters. -/
def getDailyIndex (dateKey : List Nat) (count : Nat) : Nat :=
  hashString dateKey % count

/-- Reference hash step, following the claim/spec wording: compute
`(hash << 5) - hash + code` in exact integer arithmetic and truncate the
result to a signed 32-bit two's-complement value (`hash * 32 = hash << 5`). -/
def refHashStep (hash : Int) (c : Nat) : Int :=
  toInt32 (hash * 32 - hash + c)

/-- Reference absolute value, following the spec wording: the minimum signed
32-bit value is reinterpreted as the non-negative `2^31` rather than
trapping; every other value gets its ordinary absolute value. -/
def refAbs (h : Int) : Nat :=
  if h = -2147483648 then 2147483648 else h.natAbs

/-- Reference hash of the claim: fold `refHashStep` from 0, then `refAbs`. -/
def refHashString (codes : List Nat) : Nat :=
  refAbs (codes.foldl refHashStep 0)

/-! ## The quote records and the random selector -/

/-- A quote record: `text`, `song`, `artist`, and an optional `album`
(`none` models an absent field; the empty string is JS-falsy like absence). -/
structure Quote where
  text : String
  song : String
  artist : String
  album : Option String
deriving Repr, DecidableEq

/-- The text of the quote stored at index `i`, if any: `quotes[i].text`. -/
def textAt (quotes : List Quote) (i : Nat) : Option String :=
  (quotes.get? i).map Quote.text

/-- The do-while loop of `getRandomIndex`:
`do { idx = draws(attempts); attempts++; } while (quotes[idx].text === currentText && attempts < 20)`.
The first argument of the pair is the number of attempts already made, the
second is structural fuel; every reachable call keeps `attempts + fuel = 20`,
so the fuel-0 fallback (which just returns the current draw) is never hit. -/
def getRandomIndexAux (quotes : List Quote) (currentText : String)
    (draws : Nat → Nat) : Nat → Nat → Nat
  | attempts, 0 => draws attempts
  | attempts, fuel + 1 =>
    if textAt quotes (draws attempts) = some currentText ∧ attempts + 1 < 20 then
      getRandomIndexAux quotes currentText draws (attempts + 1) fuel
    else
      draws attempts

/-- Model of `getRandomIndex` from `app.js`: return 0 for collections of size ≤ 1,
otherwise run the bounded retry loop starting with 0 attempts made. -/
def getRandomIndex (quotes : List Quote) (currentText : String)
    (draws : Nat → Nat) : Nat :=
  if quotes.length ≤ 1 then 0
  else getRandomIndexAux quotes currentText draws 0 20

/-! ## Rendering and page wiring -/

/-- The credit string built by `displayQuote`:
`quote.song + " — " + quote.artist`, with `" (" + quote.album + ")"`
appended when `quote.album` is truthy (present and non-empty) and not the
literal `"Single"`. -/
def renderCredit (q : Quote) : String :=
  let credit := q.song ++ " — " ++ q.artist
  match q.album with
  | none => credit
  | some a => if a ≠ "" ∧ a ≠ "Single" then credit ++ (" (" ++ a ++ ")") else credit

/-- The DOM pieces the script mutates: the two text regions with their
`visible` classes, and the mode label. -/
structure Dom where
  quoteText : String
  quoteTextVisible : Bool
  quoteCredit : String
  quoteCreditVisible : Bool
  dailyLabel : String
deriving Repr, DecidableEq

/-- Page state: the DOM plus the `isDaily` mode flag. -/
structure AppState where
  dom : Dom
  isDaily : Bool
deriving Repr, DecidableEq

/-- Model of `displayQuote` from `app.js`, as the settled state after its fade-out,
300ms text swap and animation-frame visibility add have all fired.  When
`quotes[index]` is undefined it returns before touching anything. -/
def displayQuote (quotes : List Quote) (index : Nat) (d : Dom) : Dom :=
  match quotes.get? index with
  | none => d
  | some q =>
    { d with
      quoteText := "“" ++ q.text ++ "”"
      quoteCredit := renderCredit q
      quoteTextVisible := true
      quoteCreditVisible := true }

/-- JS `s.slice(1, -1)`: the string without its first and last characters,
used by `onShuffle` to strip the quotation marks. -/
def slice1neg1 (s : String) : String :=
  String.mk (s.data.drop 1).dropLast

/-- Model of `onShuffle` from `app.js`: clear the mode flag, set the label to
`"random"`, recover the current text from the displayed quote, and display
a random index. -/
def onShuffle (quotes : List Quote) (draws : Nat → Nat) (s : AppState) : AppState :=
  let dom1 := { s.dom with dailyLabel := "random" }
  let currentText := slice1neg1 dom1.quoteText
  { dom := displayQuote quotes (getRandomIndex quotes currentText draws) dom1
    isDaily := false }

/-- The keydown listener from `app.js`, registered unconditionally: on the
space key with the document body focused it runs `onShuffle`; anything else
leaves the state alone. -/
def onKeydown (quotes : List Quote) (draws : Nat → Nat) (key : String)
    (targetIsBody : Bool) (s : AppState) : AppState :=
  if key = " " ∧ targetIsBody = true then onShuffle quotes draws s else s

/-- A core-selector invocation, recorded by the `init` model so that
"no selector is invoked" is a provable statement. -/
inductive SelEvent where
  | daily
  | random
deriving Repr, DecidableEq

/-- The init block of `app.js`: on an empty collection set the fallback text
and mark it visible immediately; otherwise display the daily index and
register the shuffle click handler.  Returns the new DOM, the list of core
selector invocations made, and whether the click handler was registered. -/
def init (quotes : List Quote) (dateKey : List Nat) (d : Dom) :
    Dom × List SelEvent × Bool :=
  if quotes.length = 0 then
    ({ d with quoteText := "No quotes available yet.", quoteTextVisible := true },
      [], false)
  else
    (displayQuote quotes (getDailyIndex dateKey quotes.length) d,
      [SelEvent.daily], true)

/-! ## Helper lemmas about the hash -/

theorem hashStep_eq_refHashStep (h : Int) (c : Nat) :
    hashStep h c = refHashStep h c := by
  unfold hashStep refHashStep toInt32
  omega

theorem natAbs_eq_refAbs (h : Int) : h.natAbs = refAbs h := by
  unfold refAbs
  split
  · subst h; rfl
  · rfl

theorem foldl_hashStep_eq_refHashStep (codes : List Nat) (a : Int) :
    codes.foldl hashStep a = codes.foldl refHashStep a := by
  induction codes generalizing a with
  | nil => rfl
  | cons c cs ih =>
    simp only [List.foldl_cons, hashStep_eq_refHashStep, ih]

/-! ## Claim theorems for the daily selector -/

/-- C1: for every date-key string and every count > 0, the daily selector
(`hashString` composed with reduction modulo the collection length, as in
`getDailyIndex`) returns an integer in `[0, count)`. -/
theorem getDailyIndex_lt_count (dateKey : List Nat) (count : Nat)
    (hcount : 0 < count) : getDailyIndex dateKey count < count :=
  Nat.mod_lt _ hcount

/-- Witness for C1 at the spec's scenario input: date key `2024-01-15`,
count 7. -/
theorem getDailyIndex_lt_count_witness :
    0 < 7 ∧ getDailyIndex (strCodes ("2024-01-15")) 7 < 7 :=
  ⟨by decide, getDailyIndex_lt_count (strCodes ("2024-01-15")) 7 (by decide)⟩

/-! ## Helper lemmas about the retry loop -/

/-- If the loop result's text matches `currentText`, the loop ran all the way
to the 20th attempt: the result is draw 19 and every earlier draw from the
current position on also matched (hence was rejected). -/
theorem getRandomIndexAux_match (quotes : List Quote) (t : String)
    (d : Nat → Nat) :
    ∀ fuel a, a + fuel = 20 → 1 ≤ fuel →
      textAt quotes (getRandomIndexAux quotes t d a fuel) = some t →
      getRandomIndexAux quotes t d a fuel = d 19 ∧
        ∀ j, a ≤ j → j < 19 → textAt quotes (d j) = some t := by
  intro fuel
  induction fuel with
  | zero => intro a _ h1; omega
  | succ f ih =>
    intro a hinv _ hmatch
    by_cases hc : textAt quotes (d a) = some t ∧ a + 1 < 20
    · rw [getRandomIndexAux, if_pos hc] at hmatch ⊢
      have hf : 1 ≤ f := by omega
      obtain ⟨h19, hall⟩ := ih (a + 1) (by omega) hf hmatch
      refine ⟨h19, fun j haj hj19 => ?_⟩
      rcases Nat.eq_or_lt_of_le haj with h | h
      · rw [← h]; exact hc.1
      · exact hall j h hj19
    · rw [getRandomIndexAux, if_neg hc] at hmatch ⊢
      have ha : a = 19 := by
        by_contra hne
        exact hc ⟨hmatch, by omega⟩
      refine ⟨by rw [ha], fun j haj hj19 => ?_⟩
      omega

/-- The loop always returns one of the draws made, at a position in
`[a, 20)` when started at attempt count `a` with `a + fuel = 20`. -/
theorem getRandomIndexAux_exists_draw (quotes : List Quote) (t : String)
    (d : Nat → Nat) :
    ∀ fuel a, a + fuel = 20 → 1 ≤ fuel →
      ∃ k, a ≤ k ∧ k < 20 ∧ getRandomIndexAux quotes t d a fuel = d k := by
  intro fuel
  induction fuel with
  | zero => intro a _ h1; omega
  | succ f ih =>
    intro a hinv _
    by_cases hc : textAt quotes (d a) = some t ∧ a + 1 < 20
    · rw [getRandomIndexAux, if_pos hc]
      have hf : 1 ≤ f := by omega
      obtain ⟨k, hk1, hk2, hk3⟩ := ih (a + 1) (by omega) hf
      exact ⟨k, by omega, hk2, hk3⟩
    · rw [getRandomIndexAux, if_neg hc]
      exact ⟨a, Nat.le_refl a, by omega, rfl⟩

/-- The loop only ever reads draws at positions in `[a, 20)`: two draw
streams agreeing there give the same result. -/
theorem getRandomIndexAux_congr (quotes : List Quote) (t : String)
    (d d' : Nat → Nat) :
    ∀ fuel a, a + fuel = 20 → 1 ≤ fuel →
      (∀ k, a ≤ k → k < 20 → d k = d' k) →
      getRandomIndexAux quotes t d a fuel = getRandomIndexAux quotes t d' a fuel := by
  intro fuel
  induction fuel with
  | zero => intro a _ h1; omega
  | succ f ih =>
    intro a hinv _ hagree
    have hda : d a = d' a := hagree a (Nat.le_refl a) (by omega)
    rw [getRandomIndexAux, getRandomIndexAux, hda]
    by_cases hc : textAt quotes (d' a) = some t ∧ a + 1 < 20
    · rw [if_pos hc, if_pos hc]
      have hf : 1 ≤ f := by omega
      exact ih (a + 1) (by omega) hf fun k hk1 hk2 => hagree k (by omega) hk2
    · rw [if_neg hc, if_neg hc]

/-! ## Claim theorems for the random selector -/

/-- C3: for a collection with more than one quote, the random selector
accepts a drawn index with text equal to `currentText` only on the 20th
draw: if the returned index's text equals `currentText`, the result is the
20th draw (`draws 19`) and all 19 earlier draws matched as well (so exactly
20 draws were attempted). -/
theorem getRandomIndex_repeat_implies_twenty_draws (quotes : List Quote)
    (t : String) (d : Nat → Nat) (hlen : 1 < quotes.length)
    (hmatch : textAt quotes (getRandomIndex quotes t d) = some t) :
    getRandomIndex quotes t d = d 19 ∧
      ∀ j, j < 19 → textAt quotes (d j) = some t := by
  have hnot : ¬ quotes.length ≤ 1 := by omega
  rw [getRandomIndex, if_neg hnot] at hmatch ⊢
  obtain ⟨h19, hall⟩ :=
    getRandomIndexAux_match quotes t d 20 0 rfl (by omega) hmatch
  exact ⟨h19, fun j hj => hall j (Nat.zero_le j) hj⟩

/-- Witness for C3: two quotes that both carry the current text, with a draw
stream always drawing 0, force the loop through all 20 attempts. -/
theorem getRandomIndex_repeat_implies_twenty_draws_witness :
    1 < ([⟨"a", "s1", "r1", none⟩, ⟨"a", "s2", "r2", none⟩] : List Quote).length ∧
    textAt [⟨"a", "s1", "r1", none⟩, ⟨"a", "s2", "r2", none⟩]
      (getRandomIndex [⟨"a", "s1", "r1", none⟩, ⟨"a", "s2", "r2", none⟩] "a"
        fun _ => 0) = some ("a") ∧
    (getRandomIndex [⟨"a", "s1", "r1", none⟩, ⟨"a", "s2", "r2", none⟩] "a"
        (fun _ => 0) = (fun _ : Nat => 0) 19 ∧
      ∀ j, j < 19 →
        textAt [⟨"a", "s1", "r1", none⟩, ⟨"a", "s2", "r2", none⟩]
          ((fun _ : Nat => 0) j) = some ("a")) :=
  ⟨by decide, by decide,
    getRandomIndex_repeat_implies_twenty_draws
      [⟨"a", "s1", "r1", none⟩, ⟨"a", "s2", "r2", none⟩] "a" (fun _ => 0)
      (by decide) (by decide)⟩

/-- C4: `getRandomIndex` consumes at most 20 draws of randomness: its result
depends only on the first 20 values of the draw stream, for every collection
and every current text. -/
theorem getRandomIndex_uses_at_most_twenty_draws (quotes : List Quote)
    (t : String) (d d' : Nat → Nat)
    (hagree : ∀ k, k < 20 → d k = d' k) :
    getRandomIndex quotes t d = getRandomIndex quotes t d' := by
  by_cases hlen : quotes.length ≤ 1
  · rw [getRandomIndex, getRandomIndex, if_pos hlen, if_pos hlen]
  · rw [getRandomIndex, getRandomIndex, if_neg hlen, if_neg hlen]
    exact getRandomIndexAux_congr quotes t d d' 20 0 rfl (by omega)
      fun k _ hk => hagree k hk

/-- Witness for C4: two streams agreeing on positions 0–19 but differing at
20 give the same result. -/
theorem getRandomIndex_uses_at_most_twenty_draws_witness :
    (∀ k, k < 20 → (fun _ : Nat => 0) k = (fun n : Nat => if n < 20 then 0 else 5) k) ∧
    getRandomIndex [⟨"a", "s1", "r1", none⟩, ⟨"b", "s2", "r2", none⟩] "x"
        (fun _ => 0) =
      getRandomIndex [⟨"a", "s1", "r1", none⟩, ⟨"b", "s2", "r2", none⟩] "x"
        fun n => if n < 20 then 0 else 5 :=
  ⟨by decide,
    getRandomIndex_uses_at_most_twenty_draws
      [⟨"a", "s1", "r1", none⟩, ⟨"b", "s2", "r2", none⟩] "x" (fun _ => 0)
      (fun n => if n < 20 then 0 else 5) (by decide)⟩

/-- C5: for every collection of length at most 1 (including empty) and every
current text, `getRandomIndex` returns 0 unconditionally. -/
theorem getRandomIndex_small_returns_zero (quotes : List Quote) (t : String)
    (d : Nat → Nat) (hlen : quotes.length ≤ 1) :
    getRandomIndex quotes t d = 0 := by
  rw [getRandomIndex, if_pos hlen]

/-- Witness for C5 on the empty collection. -/
theorem getRandomIndex_small_returns_zero_witness :
    ([] : List Quote).length ≤ 1 ∧
      getRandomIndex [] "x" (fun _ => 3) = 0 :=
  ⟨by decide, getRandomIndex_small_returns_zero [] "x" (fun _ => 3) (by decide)⟩

/-- C6: for a collection with more than one quote, when every draw is in
range (as `Math.floor(Math.random() * length)` is), the returned index is in
`[0, length)`, so lookups at it are in bounds. -/
theorem getRandomIndex_in_range (quotes : List Quote) (t : String)
    (d : Nat → Nat) (hlen : 1 < quotes.length)
    (hd : ∀ k, k < 20 → d k < quotes.length) :
    getRandomIndex quotes t d < quotes.length := by
  have hnot : ¬ quotes.length ≤ 1 := by omega
  rw [getRandomIndex, if_neg hnot]
  obtain ⟨k, _, hk20, hk⟩ :=
    getRandomIndexAux_exists_draw quotes t d 20 0 rfl (by omega)
  rw [hk]
  exact hd k hk20

/-- Witness for C6 on a two-quote collection with all draws 0. -/
theorem getRandomIndex_in_range_witness :
    1 < ([⟨"a", "s1", "r1", none⟩, ⟨"b", "s2", "r2", none⟩] : List Quote).length ∧
    (∀ k, k < 20 →
      (fun _ : Nat => 0) k <
        ([⟨"a", "s1", "r1", none⟩, ⟨"b", "s2", "r2", none⟩] : List Quote).length) ∧
    getRandomIndex [⟨"a", "s1", "r1", none⟩, ⟨"b", "s2", "r2", none⟩] "x"
        (fun _ => 0) <
      ([⟨"a", "s1", "r1", none⟩, ⟨"b", "s2", "r2", none⟩] : List Quote).length :=
  ⟨by decide, by decide,
    getRandomIndex_in_range [⟨"a", "s1", "r1", none⟩, ⟨"b", "s2", "r2", none⟩]
      "x" (fun _ => 0) (by decide) (by decide)⟩

/-- C2: for every input string, `hashString` equals the reference hash that
starts at 0, at each character computes `(hash << 5) - hash + code` truncated
to a signed 32-bit two's-complement value, and finally takes the absolute
value, with `-2^31` mapped to `2^31` (no trap). -/
theorem hashString_eq_refHashString (codes : List Nat) :
    hashString codes = refHashString codes := by
  unfold hashString refHashString
  rw [foldl_hashStep_eq_refHashStep, natAbs_eq_refAbs]

/-! ## Claim theorems for rendering and wiring -/

/-- C7: the rendered credit carries the parenthetical `" (album)"` exactly
when the album field is present, non-empty and not the literal `"Single"`;
in every other case the credit is exactly `song — artist`. -/
theorem renderCredit_album_rule (q : Quote) :
    (∀ a, q.album = some a → a ≠ "" → a ≠ "Single" →
      renderCredit q = (q.song ++ " — " ++ q.artist) ++ (" (" ++ a ++ ")")) ∧
    ((q.album = none ∨ q.album = some ("") ∨ q.album = some ("Single")) →
      renderCredit q = q.song ++ " — " ++ q.artist) := by
  constructor
  · intro a ha hne hsingle
    rw [renderCredit, ha]
    simp only [if_pos (And.intro hne hsingle)]
  · intro h
    rcases h with h | h | h <;> rw [renderCredit, h] <;> simp

/-- Witness for C7: `"Abbey Road"` keeps the parenthetical, `"Single"`
drops it. -/
theorem renderCredit_album_rule_witness :
    renderCredit ⟨"t", "Song", "Artist", some ("Abbey Road")⟩ =
        "Song — Artist (Abbey Road)" ∧
      renderCredit ⟨"t", "Song", "Artist", some ("Single")⟩ = "Song — Artist" :=
  ⟨((renderCredit_album_rule ⟨"t", "Song", "Artist", some ("Abbey Road")⟩).1
      ("Abbey Road") rfl (by decide) (by decide)).trans (by decide),
    ((renderCredit_album_rule ⟨"t", "Song", "Artist", some ("Single")⟩).2
      (Or.inr (Or.inr rfl))).trans (by decide)⟩

/-- C8: on an empty collection the load path sets the fixed fallback message
and marks it visible at once, invokes no core selector (empty invocation
list), and completes without error (it is a total function); the shuffle
click handler is not registered. -/
theorem init_empty_fallback (dateKey : List Nat) (d : Dom) :
    init [] dateKey d =
      ({ d with quoteText := "No quotes available yet.", quoteTextVisible := true },
        [], false) :=
  rfl

/-- C9: when the collection has no quote at the requested index,
`displayQuote` returns with the DOM exactly as it was: no exception, no
text change, no visibility change. -/
theorem displayQuote_missing_noop (quotes : List Quote) (index : Nat) (d : Dom)
    (h : quotes.get? index = none) : displayQuote quotes index d = d := by
  rw [displayQuote, h]

/-- Witness for C9: index 3 of the empty collection. -/
theorem displayQuote_missing_noop_witness :
    ([] : List Quote).get? 3 = none ∧
      displayQuote [] 3 ⟨"a", true, "b", false, "daily"⟩ =
        ⟨"a", true, "b", false, "daily"⟩ :=
  ⟨rfl, displayQuote_missing_noop [] 3 ⟨"a", true, "b", false, "daily"⟩ rfl⟩

/-- C10: with an empty collection, pressing space with the body focused
still runs the shuffle path (the listener is registered unconditionally):
`getRandomIndex` on the empty collection returns 0, `displayQuote 0` finds
no quote and returns, so no exception occurs and the quote text and
visibility are unchanged — but the `isDaily` flag is cleared and the mode
label is set to `"random"`. -/
theorem keydown_space_on_empty (d : Nat → Nat) (s : AppState) :
    onKeydown [] d (" ") true s =
        { s with isDaily := false, dom := { s.dom with dailyLabel := "random" } } ∧
      getRandomIndex [] (slice1neg1 s.dom.quoteText) d = 0 :=
  ⟨rfl, rfl⟩

end App
